import Mathlib

/-!
Shallow embedding of the mailbox synchronization engine of this repository.

The repository ships two variants of the sync engine:
* `worker.js` — a single-mailbox worker built on node-imap; one process per
  mailbox; the fetch/persist pipeline lives in `syncMissingEmails`,
  `saveEmailToDb`, `updateLastProcessedUID`, with connection lifecycle in
  `connect` / `handleReady` / `handleError` / `handleEnd` / `reconnect`.
* `src/unnamed/part_002` — a multi-mailbox worker built on ImapFlow; a
  `MailboxManager` class per mailbox plus a fleet reconciliation loop
  (`reconcileAndManageMailboxes`) and a dispatcher (`pollManagedMailboxes`).

State that matters to the claims: the per-mailbox sync cursor
(`last_processed_uid`), the `initial_sync_completed_at` flag, the set of
durably stored emails for the mailbox (table `emails`, unique on
(mailbox_id, uid)), and the webhook notifications attempted.  Machine
integers do not overflow in the modelled ranges, so identifiers are `Nat`.

Failures of the external collaborators (parser, message store insert,
sync-state update) are supplied by an oracle `Env`, one verdict per uid,
mirroring where the source observes success, a duplicate-key error
(Postgres code 23505), or any other error.
-/

namespace MailboxSync

/-- Combined per-mailbox world state: the sync-status row
(`last_processed_uid` as `cursor`, `initial_sync_completed_at` as
`initialSyncDone`), the uids of durably stored rows of the `emails` table
for this mailbox (`store`), and the uids for which a webhook notification
was attempted (`notifs`). -/
structure SyncState where
  cursor : Nat
  initialSyncDone : Bool
  store : List Nat
  notifs : List Nat
  deriving Repr, DecidableEq

/-- Outcome oracle for one poll cycle: whether `simpleParser` succeeds on
the message with a given uid, whether a non-duplicate insert into `emails`
succeeds for it, and whether the `mailbox_sync_status` update persisting
the cursor succeeds for it.  A uid already present in `store` is instead a
duplicate-key (23505) conflict, decided by the state, not the oracle. -/
structure Env where
  parseOk : Nat → Bool
  insertOk : Nat → Bool
  updOk : Nat → Bool

/-! ## worker.js fetch/persist pipeline -/

/-- worker.js lines 239–266: the handler run for one fetched message.
`simpleParser` failure returns from this message's callback only (other
messages are unaffected).  Otherwise `saveEmailToDb` (lines 278–320) is
attempted: a 23505 duplicate returns `undefined`, any other insert error
throws and is caught by the per-message try/catch (lines 252–263).  When
`saveEmailToDb` did not throw, `updateLastProcessedUID` (lines 113–123)
sets the cursor to this uid — also on a duplicate — and the webhook is
attempted only when a row was actually inserted. -/
def processEmailWorker (env : Env) (s : SyncState) (uid : Nat) : SyncState :=
  if env.parseOk uid = false then s
  else if uid ∈ s.store then
    { s with cursor := uid }
  else if env.insertOk uid then
    { s with cursor := uid, store := uid :: s.store, notifs := s.notifs ++ [uid] }
  else s

/-- worker.js lines 212–276, `syncMissingEmails`: a no-op before the
initial sync is completed; otherwise every uid returned by the search is
handled by its own message callback, in the order the fetch yields them. -/
def syncMissingEmails (env : Env) (s : SyncState) (uids : List Nat) : SyncState :=
  if s.initialSyncDone = false then s
  else uids.foldl (processEmailWorker env) s

/-! ## part_002 (ImapFlow) fetch/persist pipeline -/

/-- How one `pollForNewEmails` cycle of part_002 ended: normally, or by an
exception thrown while parsing or inserting a particular uid (the
exception aborts the for-await loop and is handled by the catch block at
lines 148–155). -/
inductive PollExit where
  | finished
  | parseFailed (uid : Nat)
  | insertFailed (uid : Nat)
  deriving Repr, DecidableEq

/-- part_002 lines 127–138: the for-await body of
`MailboxManager.pollForNewEmails`.  `lastUID0` is `last_processed_uid`
read once at cycle start (line 117).  A uid at or below `lastUID0` is
skipped before parsing (line 128).  A parse or non-duplicate insert
failure throws, ending the whole loop.  A duplicate (23505) makes
`saveEmailToDb` return null: no cursor update, no webhook, loop continues.
On a successful insert the cursor is persisted via `updateSyncStatus`
(which leaves the in-memory status unchanged when the database update
fails) and the webhook is attempted. -/
def pollForNewEmailsLoop (env : Env) (lastUID0 : Nat) :
    SyncState → List Nat → SyncState × PollExit
  | s, [] => (s, PollExit.finished)
  | s, uid :: rest =>
    if uid ≤ lastUID0 then pollForNewEmailsLoop env lastUID0 s rest
    else if env.parseOk uid = false then (s, PollExit.parseFailed uid)
    else if uid ∈ s.store then pollForNewEmailsLoop env lastUID0 s rest
    else if env.insertOk uid then
      pollForNewEmailsLoop env lastUID0
        { s with cursor := if env.updOk uid then uid else s.cursor,
                 store := uid :: s.store,
                 notifs := s.notifs ++ [uid] } rest
    else (s, PollExit.insertFailed uid)

/-! ## multi-cycle runs

`search c` abstracts the remote search issued with criterion
`(c+1):*` when the cursor is `c`; a run processes one cycle per oracle in
the given list, each cycle reading the cursor left by the previous one. -/

/-- Repeated `syncMissingEmails` cycles of worker.js. -/
def runWorkerCycles (search : Nat → List Nat) :
    SyncState → List Env → SyncState
  | s, [] => s
  | s, env :: rest =>
      runWorkerCycles search (syncMissingEmails env s (search s.cursor)) rest

/-- Repeated `pollForNewEmails` cycles of part_002; each cycle fixes
`lastUID0` to the cursor at its start, as line 117 does. -/
def runFlowCycles (search : Nat → List Nat) :
    SyncState → List Env → SyncState
  | s, [] => s
  | s, env :: rest =>
      runFlowCycles search
        (pollForNewEmailsLoop env s.cursor s (search s.cursor)).1 rest

/-! ## First-connection baseline (baseline-and-skip) -/

/-- worker.js lines 172–195 inside `handleReady`: when
`initial_sync_completed_at` is unset, set `last_processed_uid` to
`box.uidnext - 1` and stamp the flag; when the database update fails the
in-memory status is left untouched and the handler returns.  No message is
fetched or stored here. -/
def handleReadyInitialSetup (updateOk : Bool) (uidnext : Nat)
    (s : SyncState) : SyncState :=
  if s.initialSyncDone then s
  else if updateOk then { s with cursor := uidnext - 1, initialSyncDone := true }
  else s

/-- part_002 lines 86–94 inside `MailboxManager.connect`: the starting uid
is `this.client.mailbox.exists ? this.client.mailbox.uidNext - 1 : 0` —
zero when the mailbox currently holds no messages (`msgCount = 0`),
whatever `uidNext` is.  `updateSyncStatus` leaves the in-memory status
unchanged when the database update fails. -/
def connectInitialSetup (updateOk : Bool) (msgCount uidNext : Nat)
    (s : SyncState) : SyncState :=
  if s.initialSyncDone then s
  else if updateOk then
    { s with cursor := if msgCount ≠ 0 then uidNext - 1 else 0,
             initialSyncDone := true }
  else s

/-! ## Error handling: authentication failures and reconnect backoff -/

/-- Discriminant of an IMAP error as the source inspects it:
`err.code === 'AUTHENTICATIONFAILED'` or anything else. -/
inductive ErrCode where
  | authFailed
  | other
  deriving Repr, DecidableEq

/-- What worker.js `handleError` (lines 322–328) does with the process. -/
inductive WorkerAction where
  | exitProcess
  | logOnly
  deriving Repr, DecidableEq

/-- worker.js lines 322–328: an authentication failure exits the process
(no reconnect is scheduled by this handler); any other error is logged
only. -/
def handleErrorWorker : ErrCode → WorkerAction
  | ErrCode.authFailed => WorkerAction.exitProcess
  | ErrCode.other => WorkerAction.logOnly

/-- part_002 lines 148–155: the catch block of `pollForNewEmails`.  On
`AUTHENTICATIONFAILED` the manager is deleted from `managedMailboxes`;
in every case the manager then disconnects and schedules
`setTimeout(() => this.connect(), RECONNECT_DELAY_MS)` — the returned
boolean records that this reconnect timer was scheduled. -/
def pollCatch (managed : List Nat) (id : Nat) (code : ErrCode) :
    List Nat × Bool :=
  (if code = ErrCode.authFailed then managed.erase id else managed, true)

def RECONNECT_DELAY_BASE_MS : Nat := 5000
def RECONNECT_DELAY_MAX_MS : Nat := 300000
/-- part_002 line 10: the single fixed reconnect delay of the ImapFlow
variant. -/
def RECONNECT_DELAY_MS : Nat := 30000

/-- worker.js module state driving reconnection: `currentReconnectDelay`
and the `isReconnecting` latch. -/
structure ReconnState where
  currentReconnectDelay : Nat
  isReconnecting : Bool
  deriving Repr, DecidableEq

/-- worker.js lines 160–163 in `handleReady`: a successful connection
clears the latch and resets the delay to the base. -/
def handleReadyBackoffReset (_s : ReconnState) : ReconnState :=
  ⟨RECONNECT_DELAY_BASE_MS, false⟩

/-- worker.js lines 341–352, `reconnect()`: a no-op while already
reconnecting; otherwise it latches and schedules a timer with the current
delay (returned as `some delay`). -/
def reconnectSchedule (s : ReconnState) : ReconnState × Option Nat :=
  if s.isReconnecting then (s, none)
  else ({ s with isReconnecting := true }, some s.currentReconnectDelay)

/-- worker.js lines 347–351: the body of the reconnect timer — unlatch,
call `connect()`, then double the delay, capped at the maximum. -/
def reconnectTimerFire (s : ReconnState) : ReconnState :=
  ⟨min (s.currentReconnectDelay * 2) RECONNECT_DELAY_MAX_MS, false⟩

/-- Reconnect state after `n` consecutive transient failures, starting
from a freshly successful connection (`handleReady` reset): each failure
runs `reconnect()` and its timer then fires. -/
def stateAfterFailures : Nat → ReconnState
  | 0 => handleReadyBackoffReset ⟨0, false⟩
  | n + 1 => reconnectTimerFire (reconnectSchedule (stateAfterFailures n)).1

/-- Delay scheduled for the n-th consecutive transient failure (n ≥ 1). -/
def nthReconnectDelay (n : Nat) : Option Nat :=
  (reconnectSchedule (stateAfterFailures (n - 1))).2

/-- part_002 lines 99 and 154: every failed cycle schedules `connect()`
after the same constant delay, regardless of how many failures preceded
it. -/
def flowScheduledReconnectDelay (_n : Nat) : Nat := RECONNECT_DELAY_MS

/-! ## Fleet reconciliation (part_002 lines 238–275) -/

/-- Result of one `reconcileAndManageMailboxes` tick: the managed-mailbox
ids afterwards, the ids on which `connect()` was called this tick, and the
ids that were disconnected and dropped. -/
structure TickResult where
  managed : List Nat
  connected : List Nat
  disconnected : List Nat
  deriving Repr, DecidableEq

/-- part_002 lines 254–262: for each fetched mailbox not yet managed, a
manager is constructed and put into `managedMailboxes` BEFORE
`initialize()` is awaited; `connect()` runs only when `initialize()`
returned true.  The accumulators are the live map contents and the ids
connected so far. -/
def reconcileAdd (initOk : Nat → Bool) :
    List Nat → List Nat → List Nat → List Nat × List Nat
  | [], managed, connected => (managed, connected)
  | id :: rest, managed, connected =>
    if id ∈ managed then reconcileAdd initOk rest managed connected
    else
      reconcileAdd initOk rest (managed ++ [id])
        (if initOk id then connected ++ [id] else connected)

/-- part_002 lines 252–271: one full reconciliation tick over the fetched
active, assigned mailbox ids — the additions phase, then removal (with
`disconnect()`) of every managed id absent from the fetched set. -/
def reconcileTick (initOk : Nat → Bool) (fetched managed : List Nat) :
    TickResult :=
  let p := reconcileAdd initOk fetched managed []
  { managed := p.1.filter (fun id => decide (id ∈ fetched)),
    connected := p.2,
    disconnected := p.1.filter (fun id => decide (id ∉ fetched)) }

/-! ## Poll scheduling and the reentrancy guard (part_002) -/

/-- The slice of a `MailboxManager` that the poll guard reads: its sync
status, the `isPolling` latch, and whether the ImapFlow client is
closed. -/
structure Manager where
  sync : SyncState
  isPolling : Bool
  clientClosed : Bool
  deriving Repr, DecidableEq

/-- part_002 lines 111–113: the synchronous head of `pollForNewEmails` —
return immediately when already polling, the client is absent/closed, or
the initial sync has not completed; otherwise latch `isPolling` before the
first await.  The boolean reports whether a poll actually started. -/
def pollTrigger (m : Manager) : Manager × Bool :=
  if m.isPolling || m.clientClosed || !m.sync.initialSyncDone then (m, false)
  else ({ m with isPolling := true }, true)

/-- part_002 line 156: the finally block clearing the latch when an
in-flight poll ends. -/
def pollFinish (m : Manager) : Manager := { m with isPolling := false }

/-- Observable scheduling events for one manager: a dispatcher tick that
calls `pollForNewEmails` (part_002 lines 277–283), and the completion of
an in-flight poll. -/
inductive PollEvent where
  | trigger
  | finish
  deriving Repr, DecidableEq

/-- A manager together with the number of polls currently in flight. -/
structure PollTrace where
  mgr : Manager
  inFlight : Nat
  deriving Repr, DecidableEq

/-- One scheduling step: a trigger starts a poll exactly when the guard
lets it through; a finish can only complete an in-flight poll. -/
def pollStep (t : PollTrace) : PollEvent → PollTrace
  | PollEvent.trigger =>
      let p := pollTrigger t.mgr
      { mgr := p.1, inFlight := t.inFlight + (if p.2 then 1 else 0) }
  | PollEvent.finish =>
      if t.inFlight = 0 then t
      else { mgr := pollFinish t.mgr, inFlight := t.inFlight - 1 }

/-- Run a sequence of interleaved scheduling events. -/
def runPollEvents (t : PollTrace) (evs : List PollEvent) : PollTrace :=
  evs.foldl pollStep t

/-! ## Poll scheduling in worker.js (no reentrancy latch) -/

/-- The state worker.js exposes to its polling timer: whether the initial
sync has completed (the only thing `syncMissingEmails` checks, lines
212–216) and how many fetch/persist cycles are currently in flight.
worker.js has no `isPolling`-style latch. -/
structure WorkerPollTrace where
  baselined : Bool
  inFlight : Nat
  deriving Repr, DecidableEq

/-- worker.js lines 200–203 and 212–216: each `setInterval` tick calls
`syncMissingEmails` unconditionally; the function returns early only when
the initial sync has not completed.  There is no in-flight guard, so a
trigger that fires while a cycle is still running starts a second
concurrent cycle.  A finish completes one in-flight cycle. -/
def workerPollStep (t : WorkerPollTrace) : PollEvent → WorkerPollTrace
  | PollEvent.trigger =>
      if t.baselined then { t with inFlight := t.inFlight + 1 } else t
  | PollEvent.finish =>
      if t.inFlight = 0 then t else { t with inFlight := t.inFlight - 1 }

/-- Run a sequence of interleaved worker.js scheduling events. -/
def runWorkerPollEvents (t : WorkerPollTrace) (evs : List PollEvent) :
    WorkerPollTrace :=
  evs.foldl workerPollStep t

/-! ## Helper lemmas: worker.js pipeline -/

lemma processEmailWorker_cursor_cases (env : Env) (s : SyncState) (uid : Nat) :
    (processEmailWorker env s uid).cursor = s.cursor ∨
      (processEmailWorker env s uid).cursor = uid := by
  unfold processEmailWorker
  split_ifs <;> simp

lemma foldl_processEmailWorker_cursor_mono (env : Env) (uids : List Nat) :
    ∀ s : SyncState, uids.Pairwise (· ≤ ·) → (∀ u ∈ uids, s.cursor ≤ u) →
      s.cursor ≤ (uids.foldl (processEmailWorker env) s).cursor := by
  induction uids with
  | nil => intro s _ _; simp
  | cons x rest ih =>
    intro s hp hall
    rw [List.foldl_cons]
    rcases List.pairwise_cons.mp hp with ⟨hxr, hp2⟩
    have hcases := processEmailWorker_cursor_cases env s x
    have hrest : ∀ u ∈ rest, (processEmailWorker env s x).cursor ≤ u := by
      intro u hu
      rcases hcases with h | h
      · rw [h]; exact hall u (List.mem_cons_of_mem _ hu)
      · rw [h]; exact hxr u hu
    have hge : s.cursor ≤ (processEmailWorker env s x).cursor := by
      rcases hcases with h | h
      · rw [h]
      · rw [h]; exact hall x (List.mem_cons_self x rest)
    exact le_trans hge (ih _ hp2 hrest)

lemma syncMissingEmails_cursor_mono (env : Env) (s : SyncState) (uids : List Nat)
    (hp : uids.Pairwise (· ≤ ·)) (hall : ∀ u ∈ uids, s.cursor ≤ u) :
    s.cursor ≤ (syncMissingEmails env s uids).cursor := by
  unfold syncMissingEmails
  split_ifs with h
  · exact le_refl _
  · exact foldl_processEmailWorker_cursor_mono env uids s hp hall

/-! ## Helper lemmas: part_002 pipeline -/

lemma pollForNewEmailsLoop_store_sub (env : Env) (l0 : Nat) (uids : List Nat) :
    ∀ (s : SyncState) (u : Nat), u ∈ s.store →
      u ∈ (pollForNewEmailsLoop env l0 s uids).1.store := by
  induction uids with
  | nil => intro s u hu; simpa [pollForNewEmailsLoop] using hu
  | cons x rest ih =>
    intro s u hu
    simp only [pollForNewEmailsLoop]
    split_ifs with h1 h2 h3 h4 h5
    · exact ih s u hu
    · exact hu
    · exact ih s u hu
    · exact ih _ u (List.mem_cons_of_mem _ hu)
    · exact ih _ u (List.mem_cons_of_mem _ hu)
    · exact hu

lemma pollForNewEmailsLoop_cursor_mono (env : Env) (l0 : Nat) (uids : List Nat) :
    ∀ s : SyncState, uids.Pairwise (· ≤ ·) →
      (∀ u ∈ uids, s.cursor ≤ u ∨ u ≤ l0) →
      s.cursor ≤ (pollForNewEmailsLoop env l0 s uids).1.cursor := by
  induction uids with
  | nil => intro s _ _; simp [pollForNewEmailsLoop]
  | cons x rest ih =>
    intro s hp hall
    rcases List.pairwise_cons.mp hp with ⟨hxr, hp2⟩
    have hx : env.parseOk x = false ∨ s.cursor ≤ x ∨ x ≤ l0 := by
      rcases hall x (List.mem_cons_self x rest) with h | h
      · exact Or.inr (Or.inl h)
      · exact Or.inr (Or.inr h)
    simp only [pollForNewEmailsLoop]
    split_ifs with h1 h2 h3 h4 h5
    · exact ih s hp2 (fun u hu => hall u (List.mem_cons_of_mem _ hu))
    · exact le_refl _
    · exact ih s hp2 (fun u hu => hall u (List.mem_cons_of_mem _ hu))
    · -- insert succeeded, cursor persisted: local cursor becomes x
      refine le_trans ?_ (ih _ hp2 ?_)
      · show s.cursor ≤ x
        rcases hx with h | h | h
        · exact absurd h h2
        · exact h
        · omega
      · intro u hu
        exact Or.inl (hxr u hu)
    · -- insert succeeded, cursor persistence failed: local cursor unchanged
      exact ih ⟨s.cursor, s.initialSyncDone, x :: s.store, s.notifs ++ [x]⟩ hp2
        (fun u hu => hall u (List.mem_cons_of_mem _ hu))
    · exact le_refl _

lemma pollForNewEmailsLoop_no_skip (env : Env) (l0 : Nat) (uids : List Nat) :
    ∀ s : SyncState, uids.Pairwise (· < ·) →
      (∀ u ∈ uids, u ≤ l0 ∨ s.cursor < u ∨ u ∈ s.store) →
      ∀ u ∈ uids, l0 < u →
        u ≤ (pollForNewEmailsLoop env l0 s uids).1.cursor →
        u ∈ (pollForNewEmailsLoop env l0 s uids).1.store := by
  induction uids with
  | nil => intro s _ _ u hu; simp at hu
  | cons x rest ih =>
    intro s hp hinv u hu hgt hle
    rcases List.pairwise_cons.mp hp with ⟨hxr, hp2⟩
    simp only [pollForNewEmailsLoop] at hle ⊢
    split_ifs at hle ⊢ with h1 h2 h3 h4 h5
    · -- x ≤ lastUID0: skipped before parsing
      rcases List.mem_cons.mp hu with rfl | hu2
      · omega
      · exact ih s hp2 (fun v hv => hinv v (List.mem_cons_of_mem _ hv)) u hu2 hgt hle
    · -- parse failure at x aborts the cycle
      have hle2 : u ≤ s.cursor := hle
      rcases hinv u hu with h | h | h
      · omega
      · omega
      · exact h
    · -- duplicate at x: state unchanged, loop continues
      rcases List.mem_cons.mp hu with rfl | hu2
      · exact pollForNewEmailsLoop_store_sub env l0 rest s u h3
      · exact ih s hp2 (fun v hv => hinv v (List.mem_cons_of_mem _ hv)) u hu2 hgt hle
    · -- successful insert at x, cursor persisted
      rcases List.mem_cons.mp hu with rfl | hu2
      · exact pollForNewEmailsLoop_store_sub env l0 rest _ u
          (List.mem_cons_self u s.store)
      · refine ih _ hp2 ?_ u hu2 hgt hle
        intro v hv
        exact Or.inr (Or.inl (hxr v hv))
    · -- successful insert at x, cursor persistence failed
      rcases List.mem_cons.mp hu with rfl | hu2
      · exact pollForNewEmailsLoop_store_sub env l0 rest _ u
          (List.mem_cons_self u s.store)
      · refine ih _ hp2 ?_ u hu2 hgt hle
        intro v hv
        rcases hinv v (List.mem_cons_of_mem _ hv) with h | h | h
        · exact Or.inl h
        · exact Or.inr (Or.inl h)
        · exact Or.inr (Or.inr (List.mem_cons_of_mem _ h))
    · -- non-duplicate insert failure at x aborts the cycle
      have hle2 : u ≤ s.cursor := hle
      rcases hinv u hu with h | h | h
      · omega
      · omega
      · exact h

lemma runWorkerCycles_cursor_mono (search : Nat → List Nat)
    (hasc : ∀ c, (search c).Pairwise (· ≤ ·))
    (habove : ∀ c, ∀ u ∈ search c, c ≤ u) (envs : List Env) :
    ∀ s : SyncState, s.cursor ≤ (runWorkerCycles search s envs).cursor := by
  induction envs with
  | nil => intro s; simp [runWorkerCycles]
  | cons env rest ih =>
    intro s
    simp only [runWorkerCycles]
    exact le_trans
      (syncMissingEmails_cursor_mono env s (search s.cursor) (hasc s.cursor)
        (fun u hu => habove s.cursor u hu))
      (ih _)

lemma runFlowCycles_cursor_mono (search : Nat → List Nat)
    (hasc : ∀ c, (search c).Pairwise (· ≤ ·)) (envs : List Env) :
    ∀ s : SyncState, s.cursor ≤ (runFlowCycles search s envs).cursor := by
  induction envs with
  | nil => intro s; simp [runFlowCycles]
  | cons env rest ih =>
    intro s
    simp only [runFlowCycles]
    refine le_trans ?_ (ih _)
    exact pollForNewEmailsLoop_cursor_mono env s.cursor (search s.cursor) s
      (hasc s.cursor) (fun u _ => le_total s.cursor u)

lemma runFlowCycles_store_sub (search : Nat → List Nat) (envs : List Env) :
    ∀ (s : SyncState) (u : Nat), u ∈ s.store →
      u ∈ (runFlowCycles search s envs).store := by
  induction envs with
  | nil => intro s u hu; simpa [runFlowCycles] using hu
  | cons env rest ih =>
    intro s u hu
    simp only [runFlowCycles]
    exact ih _ u (pollForNewEmailsLoop_store_sub env s.cursor (search s.cursor) s u hu)

/-- After an earlier abort, or up to a non-duplicate insert failure at
`x`, the elements behind `x` are never examined: the cycle computes the
same result whether or not they are present. -/
lemma pollForNewEmailsLoop_insert_abort (env : Env) (l0 x : Nat)
    (hx : l0 < x) (hparse : env.parseOk x = true)
    (hfail : env.insertOk x = false) (ys : List Nat) :
    ∀ (xs : List Nat) (s : SyncState), x ∉ s.store → x ∉ xs →
      pollForNewEmailsLoop env l0 s (xs ++ x :: ys) =
        pollForNewEmailsLoop env l0 s (xs ++ [x]) := by
  intro xs
  induction xs with
  | nil =>
    intro s hst _
    simp only [List.nil_append]
    simp only [pollForNewEmailsLoop]
    rw [if_neg (by omega), if_neg (by simp [hparse]), if_neg hst,
      if_neg (by simp [hfail]), if_neg (by omega), if_neg (by simp [hparse]),
      if_neg hst, if_neg (by simp [hfail])]
  | cons v xs ih =>
    intro s hst hnx
    have hvx : x ≠ v := fun h => hnx (h ▸ List.mem_cons_self v xs)
    have hxxs : x ∉ xs := fun h => hnx (List.mem_cons_of_mem _ h)
    simp only [List.cons_append]
    simp only [pollForNewEmailsLoop]
    split_ifs with h1 h2 h3 h4 h5
    · exact ih s hst hxxs
    · rfl
    · exact ih s hst hxxs
    · exact ih _ (by simp [hvx, hst]) hxxs
    · exact ih _ (by simp [hvx, hst]) hxxs
    · rfl

/-- Processing a batch that ends at a message whose insert fails leaves
the local cursor strictly below that message's uid. -/
lemma pollForNewEmailsLoop_cursor_lt (env : Env) (l0 x : Nat)
    (hx : l0 < x) (hparse : env.parseOk x = true)
    (hfail : env.insertOk x = false) :
    ∀ (xs : List Nat) (s : SyncState), s.cursor < x → (∀ v ∈ xs, v < x) →
      x ∉ s.store →
      (pollForNewEmailsLoop env l0 s (xs ++ [x])).1.cursor < x := by
  intro xs
  induction xs with
  | nil =>
    intro s hcur _ hst
    simp only [List.nil_append]
    simp only [pollForNewEmailsLoop]
    rw [if_neg (by omega), if_neg (by simp [hparse]), if_neg hst,
      if_neg (by simp [hfail])]
    exact hcur
  | cons v xs ih =>
    intro s hcur hlt hst
    have hvx : v < x := hlt v (List.mem_cons_self v xs)
    have hlt2 : ∀ w ∈ xs, w < x := fun w hw => hlt w (List.mem_cons_of_mem _ hw)
    simp only [List.cons_append]
    simp only [pollForNewEmailsLoop]
    split_ifs with h1 h2 h3 h4 h5
    · exact ih s hcur hlt2 hst
    · exact hcur
    · exact ih s hcur hlt2 hst
    · exact ih _ hvx hlt2 (by simp [hst]; omega)
    · exact ih _ hcur hlt2 (by simp [hst]; omega)
    · exact hcur

lemma mem_reconcileAdd_fst (initOk : Nat → Bool) (fetched : List Nat) :
    ∀ (managed connected : List Nat) (id : Nat),
      id ∈ (reconcileAdd initOk fetched managed connected).1 ↔
        id ∈ managed ∨ id ∈ fetched := by
  induction fetched with
  | nil => intro managed connected id; simp [reconcileAdd]
  | cons x rest ih =>
    intro managed connected id
    by_cases hx : x ∈ managed
    · rw [reconcileAdd, if_pos hx, ih]
      constructor
      · rintro (h | h)
        · exact Or.inl h
        · exact Or.inr (List.mem_cons_of_mem _ h)
      · rintro (h | h)
        · exact Or.inl h
        · rcases List.mem_cons.mp h with rfl | h2
          · exact Or.inl hx
          · exact Or.inr h2
    · rw [reconcileAdd, if_neg hx, ih]
      simp only [List.mem_append, List.mem_cons, List.mem_singleton]
      tauto

lemma mem_reconcileAdd_snd (initOk : Nat → Bool) (fetched : List Nat) :
    ∀ (managed connected : List Nat) (id : Nat),
      id ∈ (reconcileAdd initOk fetched managed connected).2 ↔
        id ∈ connected ∨ (id ∈ fetched ∧ id ∉ managed ∧ initOk id = true) := by
  induction fetched with
  | nil => intro managed connected id; simp [reconcileAdd]
  | cons x rest ih =>
    intro managed connected id
    by_cases hx : x ∈ managed
    · rw [reconcileAdd, if_pos hx, ih]
      by_cases hid : id = x
      · subst hid
        simp [hx]
      · simp only [List.mem_cons, hid, false_or]
    · rw [reconcileAdd, if_neg hx, ih]
      by_cases hok : initOk x
      · rw [if_pos hok]
        by_cases hid : id = x
        · subst hid
          simp only [List.mem_append, List.mem_singleton, List.mem_cons,
            hok, hx]
          tauto
        · simp only [List.mem_append, List.mem_singleton, List.mem_cons, hid,
            or_false, false_or]
          tauto
      · rw [if_neg hok]
        by_cases hid : id = x
        · subst hid
          simp only [List.mem_append, List.mem_singleton, List.mem_cons, hok]
          constructor
          · rintro (h | ⟨h1, h2, h3⟩)
            · exact Or.inl h
            · simp at h3
          · rintro (h | ⟨h1, h2, h3⟩)
            · exact Or.inl h
            · simp at h3
        · simp only [List.mem_append, List.mem_singleton, List.mem_cons, hid,
            false_or]
          tauto

lemma mem_reconcileTick_managed (initOk : Nat → Bool)
    (fetched managed : List Nat) (id : Nat) :
    id ∈ (reconcileTick initOk fetched managed).managed ↔ id ∈ fetched := by
  simp only [reconcileTick, List.mem_filter, mem_reconcileAdd_fst,
    decide_eq_true_iff]
  tauto

lemma mem_reconcileTick_connected (initOk : Nat → Bool)
    (fetched managed : List Nat) (id : Nat) :
    id ∈ (reconcileTick initOk fetched managed).connected ↔
      id ∈ fetched ∧ id ∉ managed ∧ initOk id = true := by
  simp only [reconcileTick, mem_reconcileAdd_snd, List.not_mem_nil, false_or]

lemma mem_reconcileTick_disconnected (initOk : Nat → Bool)
    (fetched managed : List Nat) (id : Nat) :
    id ∈ (reconcileTick initOk fetched managed).disconnected ↔
      id ∈ managed ∧ id ∉ fetched := by
  simp only [reconcileTick, List.mem_filter, mem_reconcileAdd_fst,
    decide_eq_true_iff]
  tauto

lemma stateAfterFailures_spec (k : Nat) :
    stateAfterFailures k =
      ⟨min (RECONNECT_DELAY_BASE_MS * 2 ^ k) RECONNECT_DELAY_MAX_MS, false⟩ := by
  induction k with
  | zero =>
    simp [stateAfterFailures, handleReadyBackoffReset, RECONNECT_DELAY_BASE_MS,
      RECONNECT_DELAY_MAX_MS]
  | succ n ih =>
    rw [stateAfterFailures, ih]
    simp only [reconnectSchedule, reconnectTimerFire, Bool.false_eq_true,
      if_false]
    refine congrArg (fun d => ReconnState.mk d false) ?_
    rw [pow_succ, ← Nat.mul_assoc]
    generalize RECONNECT_DELAY_BASE_MS * 2 ^ n = a
    have hbm : RECONNECT_DELAY_BASE_MS ≤ RECONNECT_DELAY_MAX_MS := by
      simp [RECONNECT_DELAY_BASE_MS, RECONNECT_DELAY_MAX_MS]
    omega

lemma pollStep_inFlight_inv (t : PollTrace)
    (h : t.inFlight = if t.mgr.isPolling then 1 else 0) (e : PollEvent) :
    (pollStep t e).inFlight = if (pollStep t e).mgr.isPolling then 1 else 0 := by
  cases e with
  | trigger =>
    simp only [pollStep, pollTrigger]
    split_ifs at h ⊢ with h1 h2
    all_goals simp_all [pollTrigger]
  | finish =>
    simp only [pollStep]
    split_ifs at h ⊢ with h1 h2
    all_goals simp_all [pollFinish]

lemma runPollEvents_inFlight_inv (evs : List PollEvent) :
    ∀ t : PollTrace, t.inFlight = (if t.mgr.isPolling then 1 else 0) →
      (runPollEvents t evs).inFlight =
        if (runPollEvents t evs).mgr.isPolling then 1 else 0 := by
  induction evs with
  | nil => intro t h; simpa [runPollEvents] using h
  | cons e rest ih =>
    intro t h
    simp only [runPollEvents, List.foldl_cons]
    exact ih _ (pollStep_inFlight_inv t h e)

/-! ## Claim C1 -/

/-- Claim C1 counterexample: in the worker.js pipeline the claimed
invariant fails.  With cursor 100 and search result [101, 102], a parse
failure at 101 followed by a successful save of 102 leaves the cursor at
102, at and beyond the searched identifier 101 whose message was never
stored; and re-delivery of an already-known uid below the cursor (possible
through the `lastUID+1:*` range quirk after remote deletions) drives the
cursor backwards from 103 to 101. -/
theorem C1_counterexample :
    (let env : Env := ⟨fun u => !(u == 101), fun _ => true, fun _ => true⟩
     let s2 := syncMissingEmails env ⟨100, true, [], []⟩ [101, 102]
     s2.cursor = 102 ∧ 101 ∉ s2.store ∧ 101 ≤ s2.cursor)
    ∧ (syncMissingEmails ⟨fun _ => true, fun _ => true, fun _ => true⟩
        ⟨103, true, [101], []⟩ [101]).cursor = 101 := by
  decide

/-- Claim C1, amended: across any sequence of poll cycles whose search
results are strictly ascending, the worker.js cursor is non-decreasing
provided every searched identifier exceeds the cycle-start cursor, and the
ImapFlow cursor is non-decreasing and its store only grows with no such
proviso; in the ImapFlow variant the cursor is additionally never set to
or beyond a searched identifier above the cycle-start cursor whose message
is not in the store by the end of that cycle.  In the worker.js variant a
parse or persistence failure does not stop later identifiers from
advancing the cursor past the failed, unstored one. -/
theorem C1_theorem (search : Nat → List Nat)
    (hasc : ∀ c, (search c).Pairwise (· < ·)) :
    (∀ (s : SyncState) (envs : List Env),
        (∀ c, ∀ u ∈ search c, c < u) →
        s.cursor ≤ (runWorkerCycles search s envs).cursor)
    ∧ (∀ (s : SyncState) (envs : List Env),
        s.cursor ≤ (runFlowCycles search s envs).cursor)
    ∧ (∀ (s : SyncState) (envs : List Env), ∀ u ∈ s.store,
        u ∈ (runFlowCycles search s envs).store)
    ∧ (∀ (env : Env) (s : SyncState), ∀ u ∈ search s.cursor,
        s.cursor < u →
        u ≤ (pollForNewEmailsLoop env s.cursor s (search s.cursor)).1.cursor →
        u ∈ (pollForNewEmailsLoop env s.cursor s (search s.cursor)).1.store) := by
  have hasc2 : ∀ c, (search c).Pairwise (· ≤ ·) :=
    fun c => (hasc c).imp le_of_lt
  refine ⟨?_, ?_, ?_, ?_⟩
  · intro s envs habove
    exact runWorkerCycles_cursor_mono search hasc2
      (fun c u hu => le_of_lt (habove c u hu)) envs s
  · intro s envs
    exact runFlowCycles_cursor_mono search hasc2 envs s
  · intro s envs u hu
    exact runFlowCycles_store_sub search envs s u hu
  · intro env s u hu hgt hle
    refine pollForNewEmailsLoop_no_skip env s.cursor (search s.cursor) s
      (hasc s.cursor) ?_ u hu hgt hle
    intro v _
    rcases le_or_lt v s.cursor with h | h
    · exact Or.inl h
    · exact Or.inr (Or.inl h)

/-- Claim C1 witness: one concrete ImapFlow run with search result
[cursor + 1] leaves the cursor no smaller. -/
theorem C1_witness :
    (⟨0, true, [], []⟩ : SyncState).cursor ≤
      (runFlowCycles (fun c => [c + 1]) ⟨0, true, [], []⟩
        [⟨fun _ => true, fun _ => true, fun _ => true⟩]).cursor :=
  (C1_theorem (fun c => [c + 1]) (fun c => by simp)).2.1 ⟨0, true, [], []⟩ _

/-! ## Claim C2 -/

/-- Claim C2 counterexample: in the ImapFlow variant a duplicate-key
(23505) insert of uid 101 is treated as a non-error (the cycle finishes,
no notification), but the cursor stays at 100 — it does NOT advance to
101 as the claim states. -/
theorem C2_counterexample :
    (pollForNewEmailsLoop ⟨fun _ => true, fun _ => true, fun _ => true⟩ 100
        ⟨100, true, [101], []⟩ [101]).2 = PollExit.finished
    ∧ (pollForNewEmailsLoop ⟨fun _ => true, fun _ => true, fun _ => true⟩ 100
        ⟨100, true, [101], []⟩ [101]).1.notifs = []
    ∧ (pollForNewEmailsLoop ⟨fun _ => true, fun _ => true, fun _ => true⟩ 100
        ⟨100, true, [101], []⟩ [101]).1.cursor = 100
    ∧ (pollForNewEmailsLoop ⟨fun _ => true, fun _ => true, fun _ => true⟩ 100
        ⟨100, true, [101], []⟩ [101]).1.cursor ≠ 101 := by
  decide

/-- Claim C2, amended: a duplicate-key violation is treated as "already
recorded" in both variants — it is not an error and no notification is
sent — but only the worker.js variant advances the cursor to that uid;
the ImapFlow variant leaves the whole state unchanged at a duplicate and
merely continues with the rest of the batch. -/
theorem C2_theorem :
    (∀ (env : Env) (s : SyncState) (uid : Nat),
        env.parseOk uid = true → uid ∈ s.store →
        processEmailWorker env s uid = { s with cursor := uid })
    ∧ (∀ (env : Env) (l0 : Nat) (s : SyncState) (uid : Nat) (rest : List Nat),
        l0 < uid → env.parseOk uid = true → uid ∈ s.store →
        pollForNewEmailsLoop env l0 s (uid :: rest) =
          pollForNewEmailsLoop env l0 s rest) := by
  constructor
  · intro env s uid hp hm
    unfold processEmailWorker
    rw [if_neg (by simp [hp]), if_pos hm]
  · intro env l0 s uid rest hgt hp hm
    simp only [pollForNewEmailsLoop]
    rw [if_neg (by omega), if_neg (by simp [hp]), if_pos hm]

/-- Claim C2 witness: concrete duplicate at uid 101 in the ImapFlow
variant is skipped and the cycle continues with the (empty) rest. -/
theorem C2_witness :
    pollForNewEmailsLoop ⟨fun _ => true, fun _ => true, fun _ => true⟩ 100
        ⟨100, true, [101], []⟩ [101] =
      pollForNewEmailsLoop ⟨fun _ => true, fun _ => true, fun _ => true⟩ 100
        ⟨100, true, [101], []⟩ [] :=
  C2_theorem.2 _ 100 _ 101 [] (by omega) rfl (by simp)

/-! ## Claim C3 -/

/-- Claim C3 counterexample: in worker.js a non-duplicate insert failure
at uid 101 does not abort the cycle — uid 102 is still processed, stored
and notified, and the cursor advances to 102, past the failing and
unstored 101. -/
theorem C3_counterexample :
    (let env : Env := ⟨fun _ => true, fun u => !(u == 101), fun _ => true⟩
     let s2 := syncMissingEmails env ⟨100, true, [], []⟩ [101, 102]
     s2.cursor = 102 ∧ 102 ∈ s2.store ∧ 101 ∉ s2.store ∧ s2.notifs = [102]) := by
  decide

/-- Claim C3, amended: in the ImapFlow variant a non-duplicate insert
failure at x behaves exactly as claimed — the identifiers after x are
never examined (the cycle computes the same result with them removed),
the cursor stays strictly below x, and x and every later identifier lie
strictly above the final cursor, i.e. inside the next poll's search
range.  In the worker.js variant the failure is confined to that single
message: its handler leaves the state unchanged and later messages are
still processed. -/
theorem C3_theorem :
    (∀ (env : Env) (l0 x : Nat) (xs ys : List Nat) (s : SyncState),
        (xs ++ x :: ys).Pairwise (· < ·) → s.cursor ≤ l0 → l0 < x →
        env.parseOk x = true → env.insertOk x = false → x ∉ s.store →
        pollForNewEmailsLoop env l0 s (xs ++ x :: ys) =
            pollForNewEmailsLoop env l0 s (xs ++ [x])
          ∧ (pollForNewEmailsLoop env l0 s (xs ++ x :: ys)).1.cursor < x
          ∧ ∀ v ∈ x :: ys,
              (pollForNewEmailsLoop env l0 s (xs ++ x :: ys)).1.cursor < v)
    ∧ (∀ (env : Env) (s : SyncState) (uid : Nat),
        env.parseOk uid = true → uid ∉ s.store → env.insertOk uid = false →
        processEmailWorker env s uid = s) := by
  constructor
  · intro env l0 x xs ys s hp hc hl hparse hfail hst
    have hxs_lt : ∀ v ∈ xs, v < x :=
      fun v hv =>
        (List.pairwise_append.mp hp).2.2 v hv x (List.mem_cons_self x ys)
    have hnx : x ∉ xs := fun h => lt_irrefl x (hxs_lt x h)
    have heq := pollForNewEmailsLoop_insert_abort env l0 x hl hparse hfail
      ys xs s hst hnx
    have hcur : (pollForNewEmailsLoop env l0 s (xs ++ [x])).1.cursor < x :=
      pollForNewEmailsLoop_cursor_lt env l0 x hl hparse hfail xs s
        (by omega) hxs_lt hst
    refine ⟨heq, by rw [heq]; exact hcur, ?_⟩
    intro v hv
    rcases List.mem_cons.mp hv with rfl | hv2
    · rw [heq]; exact hcur
    · have hxv : x < v :=
        (List.pairwise_cons.mp (List.pairwise_append.mp hp).2.1).1 v hv2
      rw [heq]
      exact lt_trans hcur hxv
  · intro env s uid hp hm hf
    unfold processEmailWorker
    rw [if_neg (by simp [hp]), if_neg hm, if_neg (by simp [hf])]

/-- Claim C3 witness: a concrete worker.js message whose insert fails is
dropped without touching the state. -/
theorem C3_witness :
    processEmailWorker ⟨fun _ => true, fun _ => false, fun _ => true⟩
        ⟨100, true, [], []⟩ 101 = ⟨100, true, [], []⟩ :=
  C3_theorem.2 _ _ 101 rfl (by simp) rfl

/-! ## Claim C4 -/

/-- Claim C4 counterexample: the ImapFlow variant does not always set the
cursor to next_assignable_identifier - 1.  For a mailbox with zero
messages (`exists = 0`) whose remote reports `uidNext = 5` (history was
deleted), the baseline cursor is 0, not 4. -/
theorem C4_counterexample :
    (connectInitialSetup true 0 5 ⟨0, false, [], []⟩).cursor = 0 ∧
      (0 : Nat) ≠ 5 - 1 := by
  decide

/-- Claim C4, amended: on the first successful connect of an unbaselined
mailbox (with the sync-status update succeeding), both variants stamp the
flag and persist zero messages; worker.js always sets the cursor to
uidnext - 1, while the ImapFlow variant does so only when the mailbox
currently holds at least one message and sets the cursor to 0 when it is
empty. -/
theorem C4_theorem :
    (∀ (uidnext : Nat) (s : SyncState), s.initialSyncDone = false →
        (handleReadyInitialSetup true uidnext s).cursor = uidnext - 1
          ∧ (handleReadyInitialSetup true uidnext s).initialSyncDone = true
          ∧ (handleReadyInitialSetup true uidnext s).store = s.store
          ∧ (handleReadyInitialSetup true uidnext s).notifs = s.notifs)
    ∧ (∀ (msgCount uidNext : Nat) (s : SyncState), s.initialSyncDone = false →
        (connectInitialSetup true msgCount uidNext s).initialSyncDone = true
          ∧ (connectInitialSetup true msgCount uidNext s).store = s.store
          ∧ (connectInitialSetup true msgCount uidNext s).notifs = s.notifs
          ∧ (msgCount ≠ 0 →
              (connectInitialSetup true msgCount uidNext s).cursor = uidNext - 1)
          ∧ (msgCount = 0 →
              (connectInitialSetup true msgCount uidNext s).cursor = 0)) := by
  constructor
  · intro uidnext s h
    unfold handleReadyInitialSetup
    rw [if_neg (by simp [h]), if_pos rfl]
    exact ⟨rfl, rfl, rfl, rfl⟩
  · intro msgCount uidNext s h
    unfold connectInitialSetup
    rw [if_neg (by simp [h]), if_pos rfl]
    refine ⟨rfl, rfl, rfl, ?_, ?_⟩
    · intro hm; simp [hm]
    · intro hm; simp [hm]

/-- Claim C4 witness: the spec's own example — uidnext 101 baselines the
worker.js cursor to 100. -/
theorem C4_witness :
    (handleReadyInitialSetup true 101 ⟨0, false, [], []⟩).cursor = 101 - 1 :=
  (C4_theorem.1 101 ⟨0, false, [], []⟩ rfl).1

/-! ## Claim C5 -/

/-- Claim C5 counterexample: after an authentication failure removes
mailbox 7 from the managed set, the catch block still schedules a
reconnect of the orphaned manager, and the very next reconciliation tick
re-creates a manager for 7 while its credentials and active flag are
unchanged — the failure is not permanent for this instance. -/
theorem C5_counterexample :
    (pollCatch [7] 7 ErrCode.authFailed).2 = true ∧
      7 ∈ (reconcileTick (fun _ => true) [7]
            (pollCatch [7] 7 ErrCode.authFailed).1).managed := by
  decide

/-- Claim C5, amended: in the ImapFlow variant an authentication failure
during a poll removes the manager from the managed set, but a reconnect of
the removed manager is nevertheless scheduled, and any later
reconciliation tick that still fetches the mailbox (it stays active and
assigned — credential changes are not consulted) re-creates a manager for
it.  Only the single-mailbox worker.js variant is permanent: its error
handler exits the process on AUTHENTICATIONFAILED and merely logs
anything else. -/
theorem C5_theorem :
    (∀ (managed : List Nat) (id : Nat), managed.Nodup →
        id ∉ (pollCatch managed id ErrCode.authFailed).1)
    ∧ (∀ (managed : List Nat) (id : Nat) (code : ErrCode),
        (pollCatch managed id code).2 = true)
    ∧ (∀ (initOk : Nat → Bool) (fetched managed : List Nat) (id : Nat),
        id ∈ fetched → id ∈ (reconcileTick initOk fetched managed).managed)
    ∧ handleErrorWorker ErrCode.authFailed = WorkerAction.exitProcess
    ∧ (∀ code, code ≠ ErrCode.authFailed →
        handleErrorWorker code = WorkerAction.logOnly) := by
  refine ⟨?_, ?_, ?_, rfl, ?_⟩
  · intro managed id h
    simp only [pollCatch, if_pos rfl]
    exact h.not_mem_erase
  · intro managed id code
    rfl
  · intro initOk fetched managed id h
    exact (mem_reconcileTick_managed initOk fetched managed id).mpr h
  · intro code h
    cases code with
    | authFailed => exact absurd rfl h
    | other => rfl

/-- Claim C5 witness: mailbox 7 is gone from the managed set right after
the auth failure. -/
theorem C5_witness :
    7 ∉ (pollCatch [7] 7 ErrCode.authFailed).1 :=
  C5_theorem.1 [7] 7 (by simp)

/-! ## Claim C6 -/

/-- Claim C6: the n-th consecutive transient failure of worker.js is
retried after min(base · 2^(n-1), ceiling) milliseconds, a successful
connection resets the next delay to the base, and the ImapFlow variant's
constant delay also satisfies the formula with its single constant playing
both base and ceiling. -/
theorem C6_theorem :
    (∀ n : Nat, 1 ≤ n →
        nthReconnectDelay n =
          some (min (RECONNECT_DELAY_BASE_MS * 2 ^ (n - 1))
            RECONNECT_DELAY_MAX_MS))
    ∧ (∀ s : ReconnState,
        (reconnectSchedule (handleReadyBackoffReset s)).2 =
          some RECONNECT_DELAY_BASE_MS)
    ∧ (∀ n : Nat,
        flowScheduledReconnectDelay n =
          min (RECONNECT_DELAY_MS * 2 ^ (n - 1)) RECONNECT_DELAY_MS) := by
  refine ⟨?_, ?_, ?_⟩
  · intro n hn
    unfold nthReconnectDelay
    rw [stateAfterFailures_spec]
    rfl
  · intro s
    rfl
  · intro n
    have h1 : 1 ≤ 2 ^ (n - 1) := Nat.one_le_two_pow
    unfold flowScheduledReconnectDelay RECONNECT_DELAY_MS
    generalize 2 ^ (n - 1) = a at h1 ⊢
    omega

/-- Claim C6 witness: the third consecutive failure is retried after
min(5000 · 4, 300000) = 20000 ms. -/
theorem C6_witness :
    nthReconnectDelay 3 =
      some (min (RECONNECT_DELAY_BASE_MS * 2 ^ (3 - 1)) RECONNECT_DELAY_MAX_MS) :=
  C6_theorem.1 3 (by norm_num)

/-! ## Claim C7 -/

/-- Claim C7 counterexample: the worker.js variant has no reentrancy
guard — its `syncMissingEmails` checks only the baseline.  Starting
baselined with no cycle in flight, two timer ticks (the second firing
while the first cycle is still running) leave TWO polls in flight,
refuting "at most one poll in flight at any time" for that cited
variant. -/
theorem C7_counterexample :
    (runWorkerPollEvents ⟨true, 0⟩
        [PollEvent.trigger, PollEvent.trigger]).inFlight = 2
    ∧ ¬ ((runWorkerPollEvents ⟨true, 0⟩
        [PollEvent.trigger, PollEvent.trigger]).inFlight ≤ 1) := by
  decide

/-- Claim C7, amended: in the ImapFlow variant, starting with no poll in
flight, any interleaving of dispatcher triggers and poll completions
keeps at most one poll in flight for a manager, and a trigger is a no-op
(state unchanged, no poll started) whenever the manager is already
polling or not yet baselined.  The worker.js variant guards only on the
baseline: a trigger is a no-op exactly when the mailbox is not yet
baselined, and a tick that fires while baselined always starts another
cycle, even with one already in flight. -/
theorem C7_theorem :
    (∀ (m0 : Manager) (evs : List PollEvent), m0.isPolling = false →
        (runPollEvents ⟨m0, 0⟩ evs).inFlight ≤ 1)
    ∧ (∀ m : Manager, m.isPolling = true ∨ m.sync.initialSyncDone = false →
        pollTrigger m = (m, false))
    ∧ (∀ t : WorkerPollTrace, t.baselined = false →
        workerPollStep t PollEvent.trigger = t)
    ∧ (∀ t : WorkerPollTrace, t.baselined = true →
        (workerPollStep t PollEvent.trigger).inFlight = t.inFlight + 1) := by
  refine ⟨?_, ?_, ?_, ?_⟩
  · intro m0 evs h0
    have h := runPollEvents_inFlight_inv evs ⟨m0, 0⟩ (by simp [h0])
    rw [h]
    split_ifs <;> omega
  · intro m hm
    rcases hm with h | h
    · simp [pollTrigger, h]
    · simp [pollTrigger, h]
  · intro t h
    simp [workerPollStep, h]
  · intro t h
    simp [workerPollStep, h]

/-- Claim C7 witness: two overlapping triggers then one completion leave
at most one poll in flight. -/
theorem C7_witness :
    (runPollEvents ⟨⟨⟨100, true, [], []⟩, false, false⟩, 0⟩
        [PollEvent.trigger, PollEvent.trigger, PollEvent.finish]).inFlight ≤ 1 :=
  C7_theorem.1 ⟨⟨100, true, [], []⟩, false, false⟩ _ rfl

/-! ## Claim C8 -/

/-- Claim C8 counterexample: mailbox 5's `initialize()` fails, yet after
the tick it IS in the managed set (it was added before `initialize()` was
awaited); it is merely left unconnected.  The claim says it should have
been left out so the next tick retries it. -/
theorem C8_counterexample :
    5 ∈ (reconcileTick (fun _ => false) [5] []).managed ∧
      (reconcileTick (fun _ => false) [5] []).connected = [] := by
  decide

/-- Claim C8, amended: after a reconciliation tick the managed set is
exactly the fetched set — every fetched mailbox absent from the managed
set is added even when its `initialize()` fails (it stays managed,
unconnected, and is not retried); `connect()` is called exactly on the
newly added mailboxes whose `initialize()` succeeded; and exactly the
managed mailboxes absent from the fetched set are disconnected and
dropped. -/
theorem C8_theorem (initOk : Nat → Bool) (fetched managed : List Nat) :
    (∀ id, id ∈ (reconcileTick initOk fetched managed).managed ↔ id ∈ fetched)
    ∧ (∀ id, id ∈ (reconcileTick initOk fetched managed).connected ↔
        id ∈ fetched ∧ id ∉ managed ∧ initOk id = true)
    ∧ (∀ id, id ∈ (reconcileTick initOk fetched managed).disconnected ↔
        id ∈ managed ∧ id ∉ fetched) :=
  ⟨fun id => mem_reconcileTick_managed initOk fetched managed id,
   fun id => mem_reconcileTick_connected initOk fetched managed id,
   fun id => mem_reconcileTick_disconnected initOk fetched managed id⟩

/-- Claim C8 witness: a fresh mailbox 5 with successful `initialize()` is
connected on the tick that first fetched it. -/
theorem C8_witness :
    5 ∈ (reconcileTick (fun _ => true) [5] [3]).connected ↔
      5 ∈ [5] ∧ 5 ∉ [3] ∧ (fun _ => true) 5 = true :=
  (C8_theorem (fun _ => true) [5] [3]).2.1 5

/-! ## Claim C9 -/

/-- Claim C9: replaying a poll whose search returns 101–103 when those
messages are already stored and the cursor is 103 inserts no row, sends
no notification, and leaves the cursor at 103 — in both variants. -/
theorem C9_theorem :
    (syncMissingEmails ⟨fun _ => true, fun _ => true, fun _ => true⟩
        ⟨103, true, [101, 102, 103], []⟩ [101, 102, 103] =
      ⟨103, true, [101, 102, 103], []⟩)
    ∧ (pollForNewEmailsLoop ⟨fun _ => true, fun _ => true, fun _ => true⟩ 103
        ⟨103, true, [101, 102, 103], []⟩ [101, 102, 103] =
      (⟨103, true, [101, 102, 103], []⟩, PollExit.finished)) := by
  decide

/-! ## Claim C10 -/

/-- Claim C10: in the ImapFlow variant's poll cycle, a fetched message
whose uid is at or below the cycle-start cursor is skipped before
parsing: the cycle computes exactly what it would without that message,
for every oracle — so no parse, no insert, no cursor update and no
notification happens for it. -/
theorem C10_theorem (env : Env) (lastUID0 : Nat) (s : SyncState) (uid : Nat)
    (rest : List Nat) (h : uid ≤ lastUID0) :
    pollForNewEmailsLoop env lastUID0 s (uid :: rest) =
      pollForNewEmailsLoop env lastUID0 s rest := by
  simp only [pollForNewEmailsLoop]
  rw [if_pos h]

/-- Claim C10 witness: the `nextUID:*` quirk uid 103 (= cursor) is skipped
even under an oracle whose parser always fails — the parser is never
consulted for it. -/
theorem C10_witness :
    pollForNewEmailsLoop ⟨fun _ => false, fun _ => false, fun _ => false⟩ 103
        ⟨103, true, [], []⟩ [103] =
      pollForNewEmailsLoop ⟨fun _ => false, fun _ => false, fun _ => false⟩ 103
        ⟨103, true, [], []⟩ [] :=
  C10_theorem _ 103 _ 103 [] (by norm_num)

end MailboxSync
